import Mathlib

/-!
Shallow embedding of `src/statement_aggregator.py` (the `statement-aggregator`
tool): file-type detection, CSV/TSV reading, row aggregation with
deduplication, header-difference reporting, and TSV output.

Strings are modelled as Lean `String`, rows as `List String` (Python tuples of
cells), and the Python `set` of rows as an insertion-ordered duplicate-free
`List`.  File-system effects are modelled as explicit state passing; a file
that cannot be opened is modelled by `content = none`.
-/

/-- A file path, as the pieces of `pathlib.Path` the program uses: `name` is
the final component, `suffix` the extension including the leading dot (or `""`
when there is none), `full` the whole path string (the key for file-system
lookups). -/
structure FPath where
  name : String
  suffix : String
  full : String
deriving DecidableEq, Repr

/-- The two recognised file types (the strings `"csv"` / `"tsv"` returned by
`detect_file_type`). -/
inductive FType where
  | csv
  | tsv
deriving DecidableEq, Repr

/-- Models Python `str.lower` on the ASCII strings the program compares. -/
def lowerStr (s : String) : String :=
  String.mk (s.data.map Char.toLower)

/-- `detect_file_type` (src/statement_aggregator.py:13-28): inspects
`filepath.suffix.lower()`; `.csv` and `.tsv` are recognised, anything else
raises `ValueError(f"Unsupported file type: {filepath.suffix}")`. -/
def detect_file_type (filepath : FPath) : Except String FType :=
  if lowerStr filepath.suffix = ".csv" then Except.ok FType.csv
  else if lowerStr filepath.suffix = ".tsv" then Except.ok FType.tsv
  else Except.error ("Unsupported file type: " ++ filepath.suffix)

/-- The delimiter `csv.reader` is given for each file type
(src/statement_aggregator.py:45-48): comma for csv, tab for tsv. -/
def delimOf : FType → Char
  | FType.csv => ','
  | FType.tsv => '\t'

/-- Models the universal-newline translation done by `open(filepath, "r")`:
`"\r\n"` and a lone `"\r"` both become `"\n"`. -/
def normNewlines : List Char → List Char
  | [] => []
  | '\r' :: '\n' :: cs => '\n' :: normNewlines cs
  | '\r' :: cs => '\n' :: normNewlines cs
  | c :: cs => c :: normNewlines cs

/-- Splits translated text into the lines `csv.reader` consumes: lines are
terminated by `'\n'`; a trailing newline does not produce an extra empty
line, text after the last newline does produce a final line. -/
def splitLinesAux (cur : List Char) : List Char → List (List Char)
  | [] => if cur.isEmpty then [] else [cur.reverse]
  | c :: cs =>
    if c = '\n' then cur.reverse :: splitLinesAux [] cs
    else splitLinesAux (c :: cur) cs

/-- Quoting state of the field splitter: outside quotes, inside a quoted
field, or just after a closing quote (where a second quote is an escaped
quote). -/
inductive QState where
  | plain
  | quoted
  | afterQuote
deriving DecidableEq, Repr

/-- Models the field splitting of Python's `csv.reader` on one line: fields
are separated by `delim`; a field starting with `"` is quoted (it may embed
the delimiter; `""` inside quotes is an escaped quote). -/
def parseFieldsAux (delim : Char) : List Char → List Char → QState → List (List Char)
  | [], acc, _ => [acc.reverse]
  | c :: cs, acc, QState.plain =>
    if c = delim then acc.reverse :: parseFieldsAux delim cs [] QState.plain
    else if c = '"' && acc.isEmpty then parseFieldsAux delim cs acc QState.quoted
    else parseFieldsAux delim cs (c :: acc) QState.plain
  | c :: cs, acc, QState.quoted =>
    if c = '"' then parseFieldsAux delim cs acc QState.afterQuote
    else parseFieldsAux delim cs (c :: acc) QState.quoted
  | c :: cs, acc, QState.afterQuote =>
    if c = '"' then parseFieldsAux delim cs ('"' :: acc) QState.quoted
    else if c = delim then acc.reverse :: parseFieldsAux delim cs [] QState.plain
    else parseFieldsAux delim cs (c :: acc) QState.plain

/-- One line to one record: a blank line yields the empty record `[]`,
as Python's `csv.reader` does. -/
def parseLine (delim : Char) (l : List Char) : List String :=
  if l.isEmpty then [] else (parseFieldsAux delim l [] QState.plain).map String.mk

/-- Models `list(csv.reader(file))` on the whole file content: the list of
records, in order. -/
def parseContent (delim : Char) (s : String) : List (List String) :=
  (splitLinesAux [] (normNewlines s.data)).map (parseLine delim)

/-- An input file as the run sees it: its path and what opening it yields —
`none` models an I/O error on `open`, `some s` the UTF-8 text read. -/
structure InputFile where
  path : FPath
  content : Option String
deriving DecidableEq, Repr

/-- `read_file` (src/statement_aggregator.py:31-51): detect the type (its
`ValueError` propagates), open the file (an I/O error propagates), parse with
the selected delimiter; `next(reader)` on an empty file raises
`StopIteration`; otherwise the first record is the header and the rest are
the data rows. -/
def read_file (f : InputFile) : Except String (List String × List (List String)) :=
  match detect_file_type f.path with
  | Except.error e => Except.error e
  | Except.ok ft =>
    match f.content with
    | none => Except.error ("I/O error: " ++ f.path.full)
    | some s =>
      match parseContent (delimOf ft) s with
      | [] => Except.error "StopIteration"
      | header :: data => Except.ok (header, data)

/-- Models `set.add` on the Python row set `all_data`, with the set
represented as its insertion-ordered duplicate-free list of elements. -/
def setAdd (s : List (List String)) (x : List String) : List (List String) :=
  if x ∈ s then s else s ++ [x]

/-- The position-wise header comparison of src/statement_aggregator.py:112-114:
`for i, column in enumerate(header): if i >= len(first_file_header) or column
!= first_file_header[i]: column_diffs.append((filepath.name, column))`. -/
def diffEntries (fname : String) (header canonical : List String) : List (String × String) :=
  (List.range header.length).filterMap (fun i =>
    if canonical.length ≤ i then some (fname, header.getD i "")
    else if header.getD i "" ≠ canonical.getD i "" then some (fname, header.getD i "")
    else none)

/-- The mutable aggregate state of `aggregate_statements`
(src/statement_aggregator.py:89-96): the row set, the column-difference list,
the first file's header, the input-row counter, and the set of divergent
header tuples (both sets as insertion-ordered duplicate-free lists). -/
structure AggState where
  all_data : List (List String)
  column_diffs : List (String × String)
  first_file_header : List String
  total_input_rows : Nat
  headers_set : List (List String)
deriving DecidableEq, Repr

/-- The state at src/statement_aggregator.py:89-96, before any file is
processed. -/
def initState : AggState :=
  { all_data := [], column_diffs := [], first_file_header := [],
    total_input_rows := 0, headers_set := [] }

/-- One iteration of the `for filepath in input_filepaths` loop
(src/statement_aggregator.py:98-121): on a read failure the exception is
caught, logged, and the state is untouched; on success the row count is
added, the header adopted (`if not first_file_header` — Python list
truthiness, so an empty header never counts as adopted) or compared, and
every data row inserted into the row set. -/
def processFile (st : AggState) (f : InputFile) : AggState :=
  match read_file f with
  | Except.error _ => st
  | Except.ok (header, data) =>
    let st1 : AggState := { st with total_input_rows := st.total_input_rows + data.length }
    let st2 : AggState :=
      if st1.first_file_header.isEmpty then
        { st1 with first_file_header := header }
      else if header ≠ st1.first_file_header then
        { st1 with
            headers_set := setAdd st1.headers_set header,
            column_diffs := st1.column_diffs ++ diffEntries f.path.name header st1.first_file_header }
      else st1
    { st2 with all_data := List.foldl setAdd st2.all_data data }

/-- The whole loop of `aggregate_statements` over the input files, in command
line order. -/
def aggregate (files : List InputFile) : AggState :=
  List.foldl processFile initState files

/-- `total_output_rows = len(all_data)` (src/statement_aggregator.py:123). -/
def total_output_rows (files : List InputFile) : Nat :=
  (aggregate files).all_data.length

/-- The data rows a file contributes: its parsed data rows when the read
succeeds, nothing when it fails. -/
def fileRows (f : InputFile) : List (List String) :=
  match read_file f with
  | Except.ok (_, data) => data
  | Except.error _ => []

/-- All data rows of all successfully read files, in order. -/
def successfulRows (files : List InputFile) : List (List String) :=
  (files.map fileRows).flatten

/-- The header of the first successfully read input file, when any file is
read successfully. -/
def firstSuccessHeader : List InputFile → Option (List String)
  | [] => none
  | f :: fs =>
    match read_file f with
    | Except.ok (h, _) => some h
    | Except.error _ => firstSuccessHeader fs

/-- The header of the first successfully read input file whose header is
non-empty. -/
def firstSuccessNonemptyHeader : List InputFile → Option (List String)
  | [] => none
  | f :: fs =>
    match read_file f with
    | Except.ok (h, _) =>
      if h.isEmpty then firstSuccessNonemptyHeader fs else some h
    | Except.error _ => firstSuccessNonemptyHeader fs

/-- Field serialisation of `csv.writer` (QUOTE_MINIMAL): a field containing
the delimiter, a quote, or a newline character is quoted, with quotes
doubled. -/
def csvQuote (delim : Char) (s : String) : String :=
  if s.data.any (fun c => c = delim || c = '"' || c = '\r' || c = '\n') then
    "\"" ++ s.replace "\"" "\"\"" ++ "\""
  else s

/-- One output record as `csv.writer(..., delimiter="\t").writerow` emits it:
tab-separated fields and a `"\r\n"` terminator. -/
def writeRow (delim : Char) (r : List String) : String :=
  String.intercalate (String.mk [delim]) (r.map (csvQuote delim)) ++ "\r\n"

/-- `write_tsv` (src/statement_aggregator.py:54-68) as the text it writes:
the header row, then every data row, tab-delimited. -/
def write_tsv (header : List String) (data : List (List String)) : String :=
  String.join ((header :: data).map (writeRow '\t'))

/-- The output step of src/statement_aggregator.py:126-127 at the record
level: `none` when `all_data` is empty (no file written), otherwise the
header and rows handed to `write_tsv`. -/
def output (files : List InputFile) : Option (List String × List (List String)) :=
  let st := aggregate files
  if st.all_data.isEmpty then none else some (st.first_file_header, st.all_data)

/-- The run's effect on the file system (a map from full path to content):
`write_tsv` is called — opening the output path in mode `"w"` and replacing
its content — exactly when `all_data` is non-empty; no other statement
touches any file for writing. -/
def runFS (files : List InputFile) (out : FPath) (fs : String → Option String) :
    String → Option String :=
  let st := aggregate files
  if st.all_data.isEmpty then fs
  else fun p =>
    if p = out.full then some (write_tsv st.first_file_header st.all_data) else fs p

/-- An output file a run may produce, the iteration order of the Python `set`
being unspecified: the canonical header together with the set's elements in
some order. -/
def possibleOutput (files : List InputFile) (o : List String × List (List String)) : Prop :=
  o.1 = (aggregate files).first_file_header ∧ o.2.Perm (aggregate files).all_data

/-! ### Basic lemmas about the row set and the per-file step -/

lemma mem_setAdd {s : List (List String)} {x y : List String} :
    y ∈ setAdd s x ↔ y ∈ s ∨ y = x := by
  unfold setAdd
  by_cases h : x ∈ s
  · rw [if_pos h]
    constructor
    · exact Or.inl
    · rintro (hy | rfl)
      · exact hy
      · exact h
  · rw [if_neg h]
    simp [List.mem_append]

lemma nodup_setAdd {s : List (List String)} {x : List String} (h : s.Nodup) :
    (setAdd s x).Nodup := by
  unfold setAdd
  by_cases hx : x ∈ s
  · rwa [if_pos hx]
  · rw [if_neg hx, ← List.concat_eq_append]
    exact h.concat hx

lemma mem_foldl_setAdd (l : List (List String)) :
    ∀ (s : List (List String)) (y : List String),
      y ∈ List.foldl setAdd s l ↔ y ∈ s ∨ y ∈ l := by
  induction l with
  | nil => simp
  | cons a l ih =>
    intro s y
    rw [List.foldl_cons, ih, mem_setAdd, List.mem_cons]
    tauto

lemma nodup_foldl_setAdd (l : List (List String)) :
    ∀ s : List (List String), s.Nodup → (List.foldl setAdd s l).Nodup := by
  induction l with
  | nil => intro s hs; exact hs
  | cons a l ih =>
    intro s hs
    exact ih (setAdd s a) (nodup_setAdd hs)

lemma processFile_of_error {st : AggState} {f : InputFile} {e : String}
    (h : read_file f = Except.error e) : processFile st f = st := by
  simp [processFile, h]

lemma fileRows_of_error {f : InputFile} {e : String}
    (h : read_file f = Except.error e) : fileRows f = [] := by
  simp [fileRows, h]

lemma fileRows_of_ok {f : InputFile} {header : List String} {data : List (List String)}
    (h : read_file f = Except.ok (header, data)) : fileRows f = data := by
  simp [fileRows, h]

lemma processFile_all_data (st : AggState) (f : InputFile) :
    (processFile st f).all_data = List.foldl setAdd st.all_data (fileRows f) := by
  cases h : read_file f with
  | error e => rw [fileRows_of_error h]; simp [processFile, h]
  | ok v =>
    obtain ⟨header, data⟩ := v
    rw [fileRows_of_ok h]
    simp only [processFile, h]
    split
    · rfl
    · split <;> rfl

lemma processFile_total (st : AggState) (f : InputFile) :
    (processFile st f).total_input_rows = st.total_input_rows + (fileRows f).length := by
  cases h : read_file f with
  | error e => rw [fileRows_of_error h]; simp [processFile, h]
  | ok v =>
    obtain ⟨header, data⟩ := v
    rw [fileRows_of_ok h]
    simp only [processFile, h]
    split
    · rfl
    · split <;> rfl

lemma successfulRows_cons (f : InputFile) (fs : List InputFile) :
    successfulRows (f :: fs) = fileRows f ++ successfulRows fs := by
  simp [successfulRows]

lemma foldl_processFile_all_data (files : List InputFile) :
    ∀ st : AggState,
      (List.foldl processFile st files).all_data =
        List.foldl setAdd st.all_data (successfulRows files) := by
  induction files with
  | nil => intro st; rfl
  | cons f fs ih =>
    intro st
    rw [List.foldl_cons, ih (processFile st f), processFile_all_data,
      successfulRows_cons, List.foldl_append]

lemma foldl_processFile_total (files : List InputFile) :
    ∀ st : AggState,
      (List.foldl processFile st files).total_input_rows =
        st.total_input_rows + (files.map (fun f => (fileRows f).length)).sum := by
  induction files with
  | nil => intro st; rfl
  | cons f fs ih =>
    intro st
    rw [List.foldl_cons, ih (processFile st f), processFile_total, List.map_cons,
      List.sum_cons, Nat.add_assoc]

lemma processFile_ffh_of_ne (st : AggState) (f : InputFile)
    (h : st.first_file_header ≠ []) :
    (processFile st f).first_file_header = st.first_file_header := by
  cases hr : read_file f with
  | error e => simp [processFile, hr]
  | ok v =>
    obtain ⟨header, data⟩ := v
    have hb : st.first_file_header.isEmpty = false := by
      simpa [List.isEmpty_iff] using h
    simp only [processFile, hr, hb, Bool.false_eq_true, if_false]
    split <;> rfl

lemma processFile_ffh_of_empty (st : AggState) (f : InputFile) (header : List String)
    (data : List (List String)) (hr : read_file f = Except.ok (header, data))
    (h : st.first_file_header = []) :
    (processFile st f).first_file_header = header := by
  have hb : st.first_file_header.isEmpty = true := by simp [List.isEmpty_iff, h]
  simp only [processFile, hr, hb, if_true]

lemma foldl_ffh_stable (files : List InputFile) :
    ∀ st : AggState, st.first_file_header ≠ [] →
      (List.foldl processFile st files).first_file_header = st.first_file_header := by
  induction files with
  | nil => intro st _; rfl
  | cons f fs ih =>
    intro st h
    rw [List.foldl_cons]
    rw [ih (processFile st f) (by rw [processFile_ffh_of_ne st f h]; exact h),
      processFile_ffh_of_ne st f h]

lemma foldl_ffh_of_empty (files : List InputFile) :
    ∀ st : AggState, st.first_file_header = [] →
      (List.foldl processFile st files).first_file_header =
        (firstSuccessNonemptyHeader files).getD [] := by
  induction files with
  | nil => intro st h; exact h
  | cons f fs ih =>
    intro st h
    rw [List.foldl_cons]
    cases hr : read_file f with
    | error e =>
      rw [processFile_of_error hr, ih st h]
      simp [firstSuccessNonemptyHeader, hr]
    | ok v =>
      obtain ⟨header, data⟩ := v
      by_cases hh : header = []
      · subst hh
        rw [ih (processFile st f) (processFile_ffh_of_empty st f [] data hr h)]
        simp [firstSuccessNonemptyHeader, hr]
      · rw [foldl_ffh_stable fs (processFile st f)
          (by rw [processFile_ffh_of_empty st f header data hr h]; exact hh),
          processFile_ffh_of_empty st f header data hr h]
        have : header.isEmpty = false := by simpa [List.isEmpty_iff] using hh
        simp [firstSuccessNonemptyHeader, hr, this]

/-! ### Concrete inputs used by witnesses and counterexamples -/

/-- A csv file with header `x,y` and a duplicated data row. -/
def fileXY : InputFile := ⟨⟨"a.csv", ".csv", "a.csv"⟩, some "x,y\n1,2\n1,2\n3,4"⟩

/-- The same rows as `fileXY`, but tab-delimited in a `.tsv` file. -/
def fileXYtsv : InputFile := ⟨⟨"a.tsv", ".tsv", "a.tsv"⟩, some "x\ty\n1\t2\n3\t4"⟩

/-- A csv file with single-column header `A`. -/
def fileA : InputFile := ⟨⟨"b.csv", ".csv", "b.csv"⟩, some "A\nx"⟩

/-- A csv file whose first line is blank, so its header parses as the empty
record. -/
def fileEmptyHdr : InputFile := ⟨⟨"e.csv", ".csv", "e.csv"⟩, some "\n1"⟩

/-- A file with an unsupported extension: reading it raises. -/
def fileBad : InputFile := ⟨⟨"n.txt", ".txt", "n.txt"⟩, some "x,y\n1,2"⟩

/-- A csv file holding only a header row. -/
def fileHdrOnly : InputFile := ⟨⟨"h.csv", ".csv", "h.csv"⟩, some "A,B\n"⟩

/-- A csv file with no content at all. -/
def fileEmptyContent : InputFile := ⟨⟨"z.csv", ".csv", "z.csv"⟩, some ""⟩

/-- A csv file with header `A,B`. -/
def fileAB : InputFile := ⟨⟨"ab.csv", ".csv", "ab.csv"⟩, some "A,B\n1,2"⟩

/-- A csv file with header `A,C`. -/
def fileAC : InputFile := ⟨⟨"ac.csv", ".csv", "ac.csv"⟩, some "A,C\n8,9"⟩

/-- An output path. -/
def outPath : FPath := ⟨"out.tsv", ".tsv", "out.tsv"⟩

/-- A file system with nothing at any path. -/
def fsEmpty : String → Option String := fun _ => none

/-- A file system that already holds content at the output path. -/
def fsPre : String → Option String := fun p => if p = "out.tsv" then some "old" else none

/-! ### The claims -/

lemma aggregate_all_data_nodup (files : List InputFile) :
    (aggregate files).all_data.Nodup := by
  rw [show (aggregate files).all_data = List.foldl setAdd [] (successfulRows files) from
    foldl_processFile_all_data files initState]
  exact nodup_foldl_setAdd _ [] List.nodup_nil

lemma aggregate_all_data_mem (files : List InputFile) (r : List String) :
    r ∈ (aggregate files).all_data ↔ r ∈ successfulRows files := by
  rw [show (aggregate files).all_data = List.foldl setAdd [] (successfulRows files) from
    foldl_processFile_all_data files initState, mem_foldl_setAdd]
  simp

/-- C1: the reported output row count (`total_output_rows = len(all_data)`)
equals the number of distinct cell-sequence tuples among the data rows of all
successfully read input files; every such data row is in the row set, rows
from failed files are not, and duplicates within or across files collapse to
a single element. -/
theorem output_count_distinct_rows (files : List InputFile) :
    total_output_rows files = (successfulRows files).toFinset.card ∧
    (aggregate files).all_data.Nodup ∧
    ∀ r : List String, r ∈ (aggregate files).all_data ↔ r ∈ successfulRows files := by
  have hnd : (aggregate files).all_data.Nodup := aggregate_all_data_nodup files
  have hmem : ∀ r : List String, r ∈ (aggregate files).all_data ↔ r ∈ successfulRows files :=
    aggregate_all_data_mem files
  refine ⟨?_, hnd, hmem⟩
  have hfin : (aggregate files).all_data.toFinset = (successfulRows files).toFinset :=
    Finset.ext fun r => by simp only [List.mem_toFinset]; exact hmem r
  calc total_output_rows files
      = (aggregate files).all_data.length := rfl
    _ = (aggregate files).all_data.toFinset.card := (List.toFinset_card_of_nodup hnd).symm
    _ = (successfulRows files).toFinset.card := by rw [hfin]

/-- C2: a file whose read raises contributes nothing to the aggregate state —
dropping it anywhere from the input list leaves the whole final state
unchanged — and the reported total input rows is the sum of the data-row
counts of the successfully read files only (`fileRows` is empty on failed
files). -/
theorem failed_file_contributes_nothing (pre post : List InputFile) (f : InputFile)
    (h : (read_file f).isOk = false) :
    aggregate (pre ++ f :: post) = aggregate (pre ++ post) ∧
    ∀ gs : List InputFile,
      (aggregate gs).total_input_rows = (gs.map (fun g => (fileRows g).length)).sum := by
  constructor
  · have he : ∃ e, read_file f = Except.error e := by
      cases hr : read_file f with
      | error e => exact ⟨e, rfl⟩
      | ok v => rw [hr] at h; simp [Except.isOk, Except.toBool] at h
    obtain ⟨e, he⟩ := he
    unfold aggregate
    rw [List.foldl_append, List.foldl_append, List.foldl_cons, processFile_of_error he]
  · intro gs
    have := foldl_processFile_total gs initState
    simpa [aggregate, initState] using this

/-- C2 witness: the unreadable `.txt` file is skipped whole, and the total
input row count comes from the one successfully read file. -/
theorem failed_file_witness :
    aggregate [fileBad, fileXY] = aggregate [fileXY] ∧
    (aggregate [fileBad, fileXY]).total_input_rows = 3 := by
  have h := failed_file_contributes_nothing [] [fileXY] fileBad rfl
  refine ⟨h.1, ?_⟩
  rw [h.2 [fileBad, fileXY]]
  decide

/-- C3 counterexample: in the run `[fileEmptyHdr, fileA]` the first
successfully read file is `fileEmptyHdr`, whose header is the empty record,
but the canonical header — written as the output header — is `["A"]`, the
header of the second file, so the canonical header is not the header of the
first successfully read file. -/
theorem canonical_header_counterexample :
    firstSuccessHeader [fileEmptyHdr, fileA] = some [] ∧
    (aggregate [fileEmptyHdr, fileA]).first_file_header = ["A"] ∧
    (output [fileEmptyHdr, fileA]).map Prod.fst = some ["A"] ∧
    some (aggregate [fileEmptyHdr, fileA]).first_file_header ≠
      firstSuccessHeader [fileEmptyHdr, fileA] := by
  refine ⟨rfl, by decide, rfl, by decide⟩

/-- C3 amended: the canonical header — written as the output header — is the
header of the first successfully read input file whose header is non-empty
(Python's `if not first_file_header` treats an empty header like "not yet
set", so an empty first header is displaced by the next non-empty one). -/
theorem canonical_header_is_first_nonempty (files : List InputFile) (hd : List String)
    (h : firstSuccessNonemptyHeader files = some hd) :
    (aggregate files).first_file_header = hd ∧
    ∀ o : List String × List (List String), output files = some o → o.1 = hd := by
  have h1 : (aggregate files).first_file_header = (firstSuccessNonemptyHeader files).getD [] :=
    foldl_ffh_of_empty files initState rfl
  rw [h] at h1
  refine ⟨h1, ?_⟩
  intro o ho
  unfold output at ho
  dsimp only at ho
  split at ho
  · exact absurd ho (by simp)
  · cases ho
    exact h1

/-- C3 amended, witness: in the counterexample run the canonical header is
the header of the second file, the first successfully read one with a
non-empty header. -/
theorem canonical_header_witness :
    (aggregate [fileEmptyHdr, fileA]).first_file_header = ["A"] :=
  (canonical_header_is_first_nonempty [fileEmptyHdr, fileA] ["A"] rfl).1

/-- C4: after all files are processed, when the unique-row set is non-empty
the output file is written at the output path as the tab-delimited
serialisation of the canonical header followed by exactly the set's elements;
when the set is empty nothing is written and the file system is untouched. -/
theorem output_written_iff_nonempty (files : List InputFile) (out : FPath)
    (fs : String → Option String) :
    ((aggregate files).all_data ≠ [] →
      output files = some ((aggregate files).first_file_header, (aggregate files).all_data) ∧
      runFS files out fs out.full =
        some (write_tsv (aggregate files).first_file_header (aggregate files).all_data) ∧
      (aggregate files).all_data.Nodup ∧
      (∀ r : List String, r ∈ (aggregate files).all_data ↔ r ∈ successfulRows files)) ∧
    ((aggregate files).all_data = [] →
      output files = none ∧ ∀ p : String, runFS files out fs p = fs p) := by
  constructor
  · intro hne
    have hb : (aggregate files).all_data.isEmpty = false := by
      simpa [List.isEmpty_iff] using hne
    refine ⟨?_, ?_, aggregate_all_data_nodup files, aggregate_all_data_mem files⟩
    · unfold output
      dsimp only
      rw [hb]
      simp
    · unfold runFS
      try dsimp only
      rw [hb]
      simp
  · intro hemp
    have hb : (aggregate files).all_data.isEmpty = true := by
      simp [List.isEmpty_iff, hemp]
    constructor
    · unfold output
      try dsimp only
      rw [hb]
      simp
    · intro p
      unfold runFS
      try dsimp only
      rw [hb]
      simp

/-- C4 witness: the run over `fileXY` writes the serialised header and
deduplicated rows at the output path; the run over the failing `fileBad`
alone writes nothing and leaves the pre-existing file system untouched. -/
theorem output_written_witness :
    output [fileXY] = some ((aggregate [fileXY]).first_file_header, (aggregate [fileXY]).all_data) ∧
    runFS [fileXY] outPath fsPre outPath.full =
      some (write_tsv (aggregate [fileXY]).first_file_header (aggregate [fileXY]).all_data) ∧
    output [fileBad] = none ∧
    runFS [fileBad] outPath fsPre "out.tsv" = fsPre "out.tsv" := by
  have h1 := (output_written_iff_nonempty [fileXY] outPath fsPre).1 (by decide)
  have h2 := (output_written_iff_nonempty [fileBad] outPath fsPre).2 (by decide)
  exact ⟨h1.1, h1.2.1, h2.1, h2.2 "out.tsv"⟩

lemma mem_diffEntries {fname : String} {header canonical : List String} {nm col : String} :
    (nm, col) ∈ diffEntries fname header canonical ↔
      nm = fname ∧ ∃ i, i < header.length ∧ header.getD i "" = col ∧
        (canonical.length ≤ i ∨ header.getD i "" ≠ canonical.getD i "") := by
  unfold diffEntries
  simp only [List.mem_filterMap, List.mem_range]
  constructor
  · rintro ⟨i, hi, hsome⟩
    by_cases h1 : canonical.length ≤ i
    · rw [if_pos h1] at hsome
      have h3 := Option.some.inj hsome
      injection h3 with ha hb
      exact ⟨ha.symm, i, hi, hb, Or.inl h1⟩
    · rw [if_neg h1] at hsome
      by_cases h2 : header.getD i "" ≠ canonical.getD i ""
      · rw [if_pos h2] at hsome
        have h3 := Option.some.inj hsome
        injection h3 with ha hb
        exact ⟨ha.symm, i, hi, hb, Or.inr h2⟩
      · rw [if_neg h2] at hsome
        exact absurd hsome (by simp)
  · rintro ⟨rfl, i, hi, hcol, hcond⟩
    refine ⟨i, hi, ?_⟩
    by_cases h1 : canonical.length ≤ i
    · rw [if_pos h1, hcol]
    · rw [if_neg h1]
      rcases hcond with hc | hc
      · exact absurd hc h1
      · rw [if_pos hc, hcol]

lemma processFile_diffs_of_eq (st : AggState) (f : InputFile) (header : List String)
    (data : List (List String)) (hr : read_file f = Except.ok (header, data))
    (hne : st.first_file_header ≠ []) (heq : header = st.first_file_header) :
    (processFile st f).column_diffs = st.column_diffs := by
  have hb : st.first_file_header.isEmpty = false := by
    simpa [List.isEmpty_iff] using hne
  simp only [processFile, hr, hb, Bool.false_eq_true, if_false, heq]
  rw [if_neg (fun hc => hc rfl)]

lemma processFile_diffs_of_ne (st : AggState) (f : InputFile) (header : List String)
    (data : List (List String)) (hr : read_file f = Except.ok (header, data))
    (hne : st.first_file_header ≠ []) (hneq : header ≠ st.first_file_header) :
    (processFile st f).column_diffs =
      st.column_diffs ++ diffEntries f.path.name header st.first_file_header := by
  have hb : st.first_file_header.isEmpty = false := by
    simpa [List.isEmpty_iff] using hne
  simp only [processFile, hr, hb, Bool.false_eq_true, if_false]
  rw [if_pos hneq]

/-- C5: when a file is read successfully against an already-set (non-empty)
canonical header, a `(filename, column-name)` difference entry is recorded
exactly for the positions of the file's header that are at or beyond the
canonical header's length or whose name differs from the canonical name at
that position; a file whose header equals the canonical one records no
entries. -/
theorem header_diff_entries (st : AggState) (f : InputFile) (header : List String)
    (data : List (List String)) (hr : read_file f = Except.ok (header, data))
    (hne : st.first_file_header ≠ []) :
    (header = st.first_file_header → (processFile st f).column_diffs = st.column_diffs) ∧
    (header ≠ st.first_file_header →
      (processFile st f).column_diffs =
        st.column_diffs ++ diffEntries f.path.name header st.first_file_header ∧
      ∀ nm col : String,
        (nm, col) ∈ diffEntries f.path.name header st.first_file_header ↔
          nm = f.path.name ∧ ∃ i, i < header.length ∧ header.getD i "" = col ∧
            (st.first_file_header.length ≤ i ∨
              header.getD i "" ≠ st.first_file_header.getD i "")) :=
  ⟨fun heq => processFile_diffs_of_eq st f header data hr hne heq,
   fun hneq => ⟨processFile_diffs_of_ne st f header data hr hne hneq,
     fun _ _ => mem_diffEntries⟩⟩

/-- C5 witness: the spec's example — canonical header `A,B` (from `fileAB`),
later file `fileAC` with header `A,C` — records exactly one entry, for the
later file's name with column value `C`. -/
theorem header_diff_witness :
    (processFile (aggregate [fileAB]) fileAC).column_diffs = [("ac.csv", "C")] := by
  have h := (header_diff_entries (aggregate [fileAB]) fileAC ["A", "C"] [["8", "9"]]
    rfl (by decide)).2 (by decide)
  rw [h.1]
  decide

/-- C6: file-type detection looks only at the extension, case-insensitively:
`.csv` selects the comma delimiter and `.tsv` the tab delimiter, and any
other extension yields an "Unsupported file type" error naming the offending
extension, which `read_file` propagates, so such a file is never parsed. -/
theorem file_type_detection (p : FPath) :
    (lowerStr p.suffix = ".csv" → detect_file_type p = Except.ok FType.csv) ∧
    (lowerStr p.suffix = ".tsv" → detect_file_type p = Except.ok FType.tsv) ∧
    (lowerStr p.suffix ≠ ".csv" → lowerStr p.suffix ≠ ".tsv" →
      detect_file_type p = Except.error ("Unsupported file type: " ++ p.suffix)) ∧
    (∀ q : FPath, q.suffix = p.suffix → detect_file_type q = detect_file_type p) ∧
    (∀ f : InputFile, f.path = p → ∀ e : String,
      detect_file_type p = Except.error e → read_file f = Except.error e) ∧
    (∀ f : InputFile, f.path = p → ∀ ft : FType, ∀ s : String,
      detect_file_type p = Except.ok ft → f.content = some s →
      read_file f =
        match parseContent (delimOf ft) s with
        | [] => Except.error "StopIteration"
        | header :: data => Except.ok (header, data)) ∧
    delimOf FType.csv = ',' ∧ delimOf FType.tsv = '\t' := by
  refine ⟨?_, ?_, ?_, ?_, ?_, ?_, rfl, rfl⟩
  · intro h; unfold detect_file_type; rw [if_pos h]
  · intro h
    unfold detect_file_type
    by_cases h1 : lowerStr p.suffix = ".csv"
    · rw [h1] at h; exact absurd h (by decide)
    · rw [if_neg h1, if_pos h]
  · intro h1 h2; unfold detect_file_type; rw [if_neg h1, if_neg h2]
  · intro q hq; unfold detect_file_type; rw [hq]
  · intro f hf e hdet
    unfold read_file
    rw [hf, hdet]
  · intro f hf ft s hdet hc
    unfold read_file
    rw [hf, hdet, hc]

/-- C6 witness: an upper-case `.CSV` extension is detected as csv, `.tsv` as
tsv, and the `.txt` file yields the "Unsupported file type" error naming
`.txt`, which its `read_file` returns unchanged. -/
theorem file_type_witness :
    detect_file_type ⟨"m.CSV", ".CSV", "m.CSV"⟩ = Except.ok FType.csv ∧
    detect_file_type fileXYtsv.path = Except.ok FType.tsv ∧
    detect_file_type fileBad.path = Except.error "Unsupported file type: .txt" ∧
    read_file fileBad = Except.error "Unsupported file type: .txt" := by
  have h3 := (file_type_detection fileBad.path).2.2.1 (by decide) (by decide)
  have h4 := (file_type_detection fileBad.path).2.2.2.2.1 fileBad rfl
    ("Unsupported file type: " ++ fileBad.path.suffix) h3
  exact ⟨(file_type_detection ⟨"m.CSV", ".CSV", "m.CSV"⟩).1 rfl,
    (file_type_detection fileXYtsv.path).2.1 rfl, h3, h4⟩

/-- C7: a file holding only a header record is read successfully with zero
data rows, while a file with no records at all fails at the header read
(`next(reader)` raises `StopIteration`); that failure is handled per-file —
the loop step leaves the state untouched instead of aborting the run. -/
theorem header_only_and_empty_file (f : InputFile) (ft : FType) (s : String) (hd : List String)
    (hft : detect_file_type f.path = Except.ok ft) (hc : f.content = some s) :
    (parseContent (delimOf ft) s = [hd] → read_file f = Except.ok (hd, [])) ∧
    (parseContent (delimOf ft) s = [] →
      read_file f = Except.error "StopIteration" ∧
      ∀ st : AggState, processFile st f = st) := by
  constructor
  · intro hp
    simp only [read_file, hft, hc, hp]
  · intro hp
    have he : read_file f = Except.error "StopIteration" := by
      simp only [read_file, hft, hc, hp]
    exact ⟨he, fun st => processFile_of_error he⟩

/-- C7 witness: the header-only csv file yields its header and no data rows;
the zero-byte csv file fails with `StopIteration` and is skipped without
changing the state. -/
theorem header_only_witness :
    read_file fileHdrOnly = Except.ok (["A", "B"], []) ∧
    read_file fileEmptyContent = Except.error "StopIteration" ∧
    processFile initState fileEmptyContent = initState := by
  have h1 := (header_only_and_empty_file fileHdrOnly FType.csv "A,B\n" ["A", "B"]
    rfl rfl).1 (by decide)
  have h2 := (header_only_and_empty_file fileEmptyContent FType.csv "" []
    rfl rfl).2 (by decide)
  exact ⟨h1, h2.1, h2.2 initState⟩

/-- C8: the unique-row set and canonical header are a deterministic function
of the input file contents, so any two outputs a run over the same inputs may
produce — the set being enumerated in arbitrary order — have the same header
and row lists that are permutations of each other with equal row-content
sets. -/
theorem runs_deterministic_mod_order (files : List InputFile)
    (o1 o2 : List String × List (List String))
    (h1 : possibleOutput files o1) (h2 : possibleOutput files o2) :
    o1.1 = o2.1 ∧ o1.2.Perm o2.2 ∧ o1.2.toFinset = o2.2.toFinset := by
  have hp : o1.2.Perm o2.2 := h1.2.trans h2.2.symm
  refine ⟨h1.1.trans h2.1.symm, hp, ?_⟩
  exact Finset.ext fun a => by simp only [List.mem_toFinset]; exact hp.mem_iff

/-- One enumeration of the output of the run over `fileXY`. -/
def runOut1 : List String × List (List String) :=
  (["x", "y"], [["1", "2"], ["3", "4"]])

/-- The other enumeration of the output of the run over `fileXY`. -/
def runOut2 : List String × List (List String) :=
  (["x", "y"], [["3", "4"], ["1", "2"]])

/-- C8 witness: the two enumeration orders of the row set of the run over
`fileXY` agree on the header and are permutations with equal row sets. -/
theorem runs_deterministic_witness :
    runOut1.1 = runOut2.1 ∧ runOut1.2.Perm runOut2.2 ∧
      runOut1.2.toFinset = runOut2.2.toFinset :=
  runs_deterministic_mod_order [fileXY] runOut1 runOut2
    ⟨rfl, List.Perm.refl _⟩ ⟨rfl, List.Perm.swap _ _ _⟩

/-- C9: when the canonical header is still the empty one and a file is read
successfully with an empty header, that header is not kept as canonical
(Python's `if not first_file_header` re-fires later), the file is neither
recorded as divergent nor compared position-wise, yet its data rows are
counted and inserted into the row set; and from such a state the canonical
header ends up being the first successfully read non-empty header. -/
theorem empty_header_not_canonical (st : AggState) (f : InputFile)
    (data : List (List String)) (hr : read_file f = Except.ok ([], data))
    (hcanon : st.first_file_header = []) :
    (processFile st f).first_file_header = [] ∧
    (processFile st f).headers_set = st.headers_set ∧
    (processFile st f).column_diffs = st.column_diffs ∧
    (processFile st f).total_input_rows = st.total_input_rows + data.length ∧
    (∀ r : List String, r ∈ (processFile st f).all_data ↔ r ∈ st.all_data ∨ r ∈ data) ∧
    ∀ fs : List InputFile,
      (List.foldl processFile st (f :: fs)).first_file_header =
        (firstSuccessNonemptyHeader (f :: fs)).getD [] := by
  have hb : st.first_file_header.isEmpty = true := by simp [List.isEmpty_iff, hcanon]
  refine ⟨processFile_ffh_of_empty st f [] data hr hcanon, ?_, ?_, ?_, ?_, ?_⟩
  · simp only [processFile, hr, hb, if_true]
  · simp only [processFile, hr, hb, if_true]
  · simp only [processFile, hr, hb, if_true]
  · intro r
    rw [processFile_all_data st f, fileRows_of_ok hr, mem_foldl_setAdd]
  · intro fs
    exact foldl_ffh_of_empty (f :: fs) st hcanon

/-- C9 witness: processing the blank-first-line file from the initial state
keeps the canonical header empty, records nothing about headers, and still
counts and keeps the file's one data row. -/
theorem empty_header_witness :
    (processFile initState fileEmptyHdr).first_file_header = [] ∧
    (processFile initState fileEmptyHdr).headers_set = initState.headers_set ∧
    (processFile initState fileEmptyHdr).column_diffs = initState.column_diffs ∧
    (processFile initState fileEmptyHdr).total_input_rows =
      initState.total_input_rows + [["1"]].length := by
  have h := empty_header_not_canonical initState fileEmptyHdr [["1"]] rfl rfl
  exact ⟨h.1, h.2.1, h.2.2.1, h.2.2.2.1⟩

/-- C10: when the unique-row set ends up empty, the run performs no operation
on the output path — the whole file system, including any file already at the
output path, is exactly as before the run. -/
theorem no_write_when_no_rows (files : List InputFile) (out : FPath)
    (fs : String → Option String) (h : (aggregate files).all_data = []) :
    ∀ p : String, runFS files out fs p = fs p := by
  intro p
  unfold runFS
  try dsimp only
  rw [show (aggregate files).all_data.isEmpty = true by simp [List.isEmpty_iff, h]]
  simp

/-- C10 witness: a run whose single input fails leaves the pre-existing
content at the output path untouched. -/
theorem no_write_witness :
    runFS [fileEmptyContent] outPath fsPre outPath.full = fsPre outPath.full :=
  no_write_when_no_rows [fileEmptyContent] outPath fsPre (by decide) outPath.full
